import Mathlib

/-!
Shallow embedding of `src/main.rs` of the rusty_engine racing game.

Conventions of the embedding:
* `f32`/`f64` values are embedded as `ℚ` (exact arithmetic over the source formulas); `i32` is embedded as `ℤ`.
* The trigonometric functions of the runtime are kept abstract: every
  definition that uses them takes explicit parameters `cosf sinf : ℚ → ℚ`,
  mirroring the call sites `f32::cos` / `f32::sin` / `f64::sin`.
* The mutable engine context (`Engine`) is threaded explicitly: each logic
  callback takes the engine and the game state and returns the updated ones.
  A callback that performs an unchecked `.unwrap()` lookup is embedded as an
  `Option`-returning function (`none` models the process abort).
* Randomness (`thread_rng().gen_range(lo..hi)`) is embedded by passing the
  raw uniform draw `u ∈ [0,1)` as an explicit parameter and computing
  `lo + u * (hi - lo)`.
-/

/-- Two-component vector, embedding `glam::Vec2`. -/
structure Vec2 where
  x : ℚ
  y : ℚ
deriving DecidableEq, Repr

/-- Enemy record of `main.rs` (lines 5-11). -/
structure Enemy where
  label : String
  position : Vec2
  direction : ℚ
  amplitude : ℚ
deriving DecidableEq, Repr

/-- Bevy-style countdown timer as used by the game.  The program only ever
constructs non-repeating timers (`Timer::from_seconds(_, false)` at lines 63
and 194), so `tick` implements the non-repeating semantics: `elapsed`
accumulates up to `duration`, `finished` latches once reached, and
`just_finished` holds exactly on the tick that first reaches `duration`. -/
structure Timer where
  duration : ℚ
  elapsed : ℚ
  finished : Bool
  just_finished : Bool
  repeating : Bool
deriving DecidableEq, Repr

/-- Constructor `Timer::from_seconds(d, r)`: fresh timer, nothing elapsed. -/
def Timer.from_seconds (d : ℚ) (r : Bool) : Timer :=
  { duration := d, elapsed := 0, finished := false, just_finished := false,
    repeating := r }

/-- Method `Timer::tick(delta)` for the non-repeating timers this program uses. -/
def Timer.tick (t : Timer) (delta : ℚ) : Timer :=
  let total := t.elapsed + delta
  let now_done := t.duration ≤ total
  { t with
    elapsed := min total t.duration,
    finished := t.finished || now_done,
    just_finished := (!t.finished) && now_done }

/-- The `GameState` of `main.rs` (lines 13-22). -/
structure GameState where
  health : ℚ
  direction : ℚ
  speed : ℚ
  score : ℤ
  spawn_timer : Timer
  player_hit : Bool
  enemies : List Enemy
deriving DecidableEq, Repr

/-- Visual presets referenced by the program (`SpritePreset` plus the image
paths used for the track sprites). -/
inductive SpritePreset where
  | racingCarGreen
  | racingBarrelRed
  | image (path : String)
deriving DecidableEq, Repr

/-- Sprite entity of the engine: named visual with position, rotation, scale,
collision flag and render layer. -/
structure Sprite where
  preset : SpritePreset
  translation : Vec2
  rotation : ℚ
  scale : ℚ
  collision : Bool
  layer : ℚ
deriving DecidableEq, Repr

/-- A freshly added sprite (`Engine::add_sprite`): engine defaults before the
caller adjusts fields. -/
def new_sprite (preset : SpritePreset) : Sprite :=
  { preset := preset, translation := ⟨0, 0⟩, rotation := 0, scale := 1,
    collision := false, layer := 0 }

/-- On-screen text entity of the engine. -/
structure Text where
  translation : Vec2
  font_size : ℚ
  value : String
deriving DecidableEq, Repr

/-- Sound-effect presets triggered by the game. -/
inductive SfxPreset where
  | impact1
  | confirmation1
deriving DecidableEq, Repr

/-- A played sound effect: preset and volume. -/
structure SfxPlay where
  preset : SfxPreset
  volume : ℚ
deriving DecidableEq, Repr

/-- Collision transition state (`CollisionState`). -/
inductive CollisionState where
  | begin_
  | end_
deriving DecidableEq, Repr

/-- A collision pair: the two sprite labels involved. -/
structure CollisionPair where
  fst : String
  snd : String
deriving DecidableEq, Repr

/-- Rust `str::starts_with`, embedded as a character-prefix test. -/
def strStartsWith (s pre : String) : Bool :=
  pre.data.isPrefixOf s.data

/-- Predicate `CollisionPair::one_starts_with`: does either label of the pair start
with the given text? -/
def CollisionPair.one_starts_with (p : CollisionPair) (pre : String) : Bool :=
  strStartsWith p.fst pre || strStartsWith p.snd pre

/-- A collision event: the pair and its begin/end transition. -/
structure CollisionEvent where
  pair : CollisionPair
  state : CollisionState
deriving DecidableEq, Repr

/-- Keyboard snapshot: the four directional keys the game reads. -/
structure KeyboardState where
  up : Bool
  down : Bool
  left : Bool
  right : Bool
deriving DecidableEq, Repr

/-- Generic association-list lookup for the name-keyed engine tables. -/
def lookupKV {α : Type} : List (String × α) → String → Option α
  | [], _ => none
  | (k, v) :: rest, n => if k = n then some v else lookupKV rest n

/-- Generic association-list update/insert for the name-keyed engine tables. -/
def updateKV {α : Type} : List (String × α) → String → α → List (String × α)
  | [], n, v => [(n, v)]
  | (k, w) :: rest, n, v =>
    if k = n then (n, v) :: rest else (k, w) :: updateKV rest n v

/-- The per-frame engine context handed to every logic callback. -/
structure Engine where
  delta_f32 : ℚ
  time_since_startup_f64 : ℚ
  keyboard_state : KeyboardState
  sprites : List (String × Sprite)
  texts : List (String × Text)
  collision_events : List CollisionEvent
  sfx : List SfxPlay
  window_dimensions : Vec2
deriving DecidableEq, Repr

/-- The `ACCELERATION` constant (line 85). -/
def ACCELERATION : ℚ := 10

/-- The `ROTATION_SPEED` constant (line 86). -/
def ROTATION_SPEED : ℚ := 5

/-- The `HIT_RATE` constant (line 170). -/
def HIT_RATE : ℚ := 10

/-- Speed update of `player_movement_logic` (lines 91-96): Up adds
`ACCELERATION`, Down subtracts it, not scaled by delta time. -/
def new_speed (kb : KeyboardState) (speed : ℚ) : ℚ :=
  let s1 := if kb.up then speed + ACCELERATION else speed
  if kb.down then s1 - ACCELERATION else s1

/-- Facing-direction update of `player_movement_logic` (lines 97-102): Left
adds `ROTATION_SPEED * delta`, Right subtracts it. -/
def new_direction (kb : KeyboardState) (delta dir : ℚ) : ℚ :=
  let d1 := if kb.left then dir + ROTATION_SPEED * delta else dir
  if kb.right then d1 - ROTATION_SPEED * delta else d1

/-- Callback `player_movement_logic` (lines 88-108).  The unchecked lookup of the
`"player"` sprite is embedded as the `none` case. -/
def player_movement_logic (cosf sinf : ℚ → ℚ) (engine : Engine)
    (gs : GameState) : Option (Engine × GameState) :=
  match lookupKV engine.sprites "player" with
  | none => none
  | some player =>
    let speed := new_speed engine.keyboard_state gs.speed
    let dir := new_direction engine.keyboard_state engine.delta_f32 gs.direction
    let player' : Sprite :=
      { player with
        rotation := dir,
        translation :=
          ⟨player.translation.x + speed * engine.delta_f32 * cosf dir,
           player.translation.y + speed * engine.delta_f32 * sinf dir⟩ }
    some ({ engine with sprites := updateKV engine.sprites "player" player' },
          { gs with speed := speed, direction := dir })

/-- Target oscillation position of an enemy sprite (lines 125-128): base
anchor plus direction unit vector times amplitude times sine of the elapsed
wall-clock time. -/
def enemy_target_position (cosf sinf : ℚ → ℚ) (time : ℚ) (enemy : Enemy) :
    Vec2 :=
  ⟨enemy.position.x + cosf enemy.direction * enemy.amplitude * sinf time,
   enemy.position.y + sinf enemy.direction * enemy.amplitude * sinf time⟩

/-- One iteration of the enemy loop of `enemy_movement_logic` (lines
113-129): look the sprite up by label, lazily create it when missing
(`RacingBarrelRed`, layer 1, collision on), then set its translation to the
oscillation position. -/
def enemy_step (cosf sinf : ℚ → ℚ) (time : ℚ)
    (sprites : List (String × Sprite)) (enemy : Enemy) :
    List (String × Sprite) :=
  let sprite :=
    match lookupKV sprites enemy.label with
    | some s => s
    | none =>
      { new_sprite SpritePreset.racingBarrelRed with
        layer := 1, collision := true }
  updateKV sprites enemy.label
    { sprite with translation := enemy_target_position cosf sinf time enemy }

/-- Callback `enemy_movement_logic` (lines 110-130): processes every enemy record in
order; the game state itself is not modified. -/
def enemy_movement_logic (cosf sinf : ℚ → ℚ) (engine : Engine)
    (gs : GameState) : Engine :=
  { engine with
    sprites :=
      gs.enemies.foldl
        (enemy_step cosf sinf engine.time_since_startup_f64) engine.sprites }

/-- Effect of one collision event on the hit flag and the played sound
effects (`collision_logic` body, lines 144-166).  The two `if` blocks are
independent, exactly as in the source. -/
def collision_step (acc : Bool × List SfxPlay) (e : CollisionEvent) :
    Bool × List SfxPlay :=
  let acc1 :=
    if e.pair.one_starts_with "track_inner" && e.pair.one_starts_with "player"
    then
      match e.state with
      | CollisionState.begin_ =>
        (true, acc.2 ++ [⟨SfxPreset.impact1, 0.4⟩])
      | _ => (false, acc.2)
    else acc
  if e.pair.one_starts_with "track_outer" && e.pair.one_starts_with "player"
  then
    match e.state with
    | CollisionState.end_ =>
      (true, acc1.2 ++ [⟨SfxPreset.impact1, 0.4⟩])
    | _ => (false, acc1.2)
  else acc1

/-- Callback `collision_logic` (lines 132-168): iterates over the collision events of the frame (without draining them), updating the `player_hit` flag and playing
impact sounds. -/
def collision_logic (engine : Engine) (gs : GameState) :
    Engine × GameState :=
  let r := engine.collision_events.foldl collision_step
    (gs.player_hit, engine.sfx)
  ({ engine with sfx := r.2 }, { gs with player_hit := r.1 })

/-- Does this collision event score: a `Begin` transition of a pair that
involves an enemy and the player (lines 178-182)? -/
def scores_event (e : CollisionEvent) : Bool :=
  (e.pair.one_starts_with "enemy" && e.pair.one_starts_with "player") &&
    (match e.state with
     | CollisionState.begin_ => true
     | _ => false)

/-- The scoring loop of `scoring_logic` (lines 177-189): each scoring event
adds 10 to the score and plays a confirmation sound. -/
def scoring_events : List CollisionEvent → ℤ → List SfxPlay →
    ℤ × List SfxPlay
  | [], score, sfx => (score, sfx)
  | e :: rest, score, sfx =>
    if scores_event e then
      scoring_events rest (score + 10)
        (sfx ++ [⟨SfxPreset.confirmation1, 0.4⟩])
    else
      scoring_events rest score sfx

/-- Callback `scoring_logic` (lines 172-190): drains health while `player_hit` is
set, then consumes (drains) all collision events, scoring the enemy-player
`Begin` transitions. -/
def scoring_logic (engine : Engine) (gs : GameState) :
    Engine × GameState :=
  let health' :=
    if gs.player_hit then gs.health - HIT_RATE * engine.delta_f32
    else gs.health
  let r := scoring_events engine.collision_events gs.score engine.sfx
  ({ engine with collision_events := [], sfx := r.2 },
   { gs with health := health', score := r.1 })

/-- Embedding of `gen_range(lo..hi)` with the raw uniform draw `u ∈ [0,1)` made
explicit. -/
def genRange (lo hi u : ℚ) : ℚ := lo + u * (hi - lo)

/-- Callback `enemy_spawn_logic` (lines 192-197): ticks the spawn timer; when it just
finished, replaces it by a fresh non-repeating timer of a random duration in
`1.5..3.5`.  Nothing else in the game state is touched — in particular no
enemy is spawned. -/
def enemy_spawn_logic (u : ℚ) (engine : Engine) (gs : GameState) :
    GameState :=
  let t := gs.spawn_timer.tick engine.delta_f32
  if t.just_finished then
    { gs with spawn_timer := Timer.from_seconds (genRange 1.5 3.5 u) false }
  else
    { gs with spawn_timer := t }

/-- Truncation `x as i32` of the embedded `f32` value (line 219). -/
def ratTruncToInt (q : ℚ) : ℤ :=
  if q < 0 then -⌊-q⌋ else ⌊q⌋

/-- Callback `hud_logic` (lines 199-220): repositions the three HUD labels from the
window dimensions and rewrites their text from the current state.  The three
unchecked lookups are embedded as `Option`. -/
def hud_logic (engine : Engine) (gs : GameState) : Option Engine :=
  match lookupKV engine.texts "speed" with
  | none => none
  | some speed_text =>
    let speed_text' : Text :=
      { speed_text with
        translation :=
          ⟨engine.window_dimensions.x / 2 - 200,
           engine.window_dimensions.y / 2 - speed_text.font_size - 5⟩,
        value := "Speed " ++ toString gs.speed }
    let texts1 := updateKV engine.texts "speed" speed_text'
    match lookupKV texts1 "score" with
    | none => none
    | some score_text =>
      let score_text' : Text :=
        { score_text with
          translation :=
            ⟨0, engine.window_dimensions.y / 2 - score_text.font_size - 5⟩,
          value := "Score " ++ toString gs.score }
      let texts2 := updateKV texts1 "score" score_text'
      match lookupKV texts2 "health" with
      | none => none
      | some health_text =>
        let health_text' : Text :=
          { health_text with
            translation :=
              ⟨-1 * engine.window_dimensions.x / 2 + 60,
               engine.window_dimensions.y / 2 - health_text.font_size - 5⟩,
            value := "Health " ++ toString (ratTruncToInt gs.health) }
        some { engine with texts := updateKV texts2 "health" health_text' }

/-- The frame pipeline after player movement: enemy movement, collision
handling, scoring, enemy spawn timer, HUD refresh, in registration order. -/
def frame_rest (cosf sinf : ℚ → ℚ) (u : ℚ) (e1 : Engine) (g1 : GameState) :
    Option (Engine × GameState) :=
  let e2 := enemy_movement_logic cosf sinf e1 g1
  let r3 := collision_logic e2 g1
  let r4 := scoring_logic r3.1 r3.2
  let g5 := enemy_spawn_logic u r4.1 r4.2
  (hud_logic r4.1 g5).map (fun e5 => (e5, g5))

/-- One whole frame: the six logic callbacks in their registration order
(lines 54-59): player movement, enemy movement, collision handling, scoring,
enemy spawn timer, HUD refresh. -/
def frame (cosf sinf : ℚ → ℚ) (u : ℚ) (engine : Engine) (gs : GameState) :
    Option (Engine × GameState) :=
  match player_movement_logic cosf sinf engine gs with
  | none => none
  | some r1 => frame_rest cosf sinf u r1.1 r1.2

/-! ### Helper lemmas -/

theorem lookupKV_updateKV_self {α : Type} (l : List (String × α)) (n : String)
    (v : α) : lookupKV (updateKV l n v) n = some v := by
  induction l with
  | nil => simp [updateKV, lookupKV]
  | cons kv rest ih =>
    by_cases h : kv.1 = n
    · simp [updateKV, lookupKV, h]
    · simp [updateKV, lookupKV, h, ih]

theorem scoring_events_fst (l : List CollisionEvent) (score : ℤ)
    (sfx : List SfxPlay) :
    (scoring_events l score sfx).1 = score + 10 * (l.countP scores_event : ℤ) := by
  induction l generalizing score sfx with
  | nil => simp [scoring_events]
  | cons e rest ih =>
    by_cases h : scores_event e
    · simp only [scoring_events, h, if_true, ih, List.countP_cons, h]
      push_cast
      ring
    · simp only [scoring_events, h, if_false, ih, List.countP_cons]
      exact ih score sfx

theorem scoring_logic_health (engine : Engine) (gs : GameState) :
    (scoring_logic engine gs).2.health
      = if gs.player_hit then gs.health - HIT_RATE * engine.delta_f32
        else gs.health := rfl

theorem scoring_logic_score (engine : Engine) (gs : GameState) :
    (scoring_logic engine gs).2.score
      = gs.score + 10 * (engine.collision_events.countP scores_event : ℤ) := by
  show (scoring_events engine.collision_events gs.score engine.sfx).1 = _
  exact scoring_events_fst _ _ _

/-! ### Claims -/

/-- C1: in `scoring_logic`, a frame with the `player_hit` flag set decreases
health by exactly `HIT_RATE * delta` (hence strictly, the frame delta being
positive), and a frame with the flag clear leaves health unchanged by this
path. -/
theorem C1_health_drain (engine : Engine) (gs : GameState)
    (hd : 0 < engine.delta_f32) :
    (gs.player_hit = true →
      (scoring_logic engine gs).2.health
          = gs.health - HIT_RATE * engine.delta_f32 ∧
      (scoring_logic engine gs).2.health < gs.health) ∧
    (gs.player_hit = false →
      (scoring_logic engine gs).2.health = gs.health) := by
  refine ⟨fun h => ⟨?_, ?_⟩, fun h => ?_⟩
  · rw [scoring_logic_health, if_pos h]
  · rw [scoring_logic_health, if_pos h]
    have : 0 < HIT_RATE * engine.delta_f32 := by
      have : (0:ℚ) < HIT_RATE := by norm_num [HIT_RATE]
      positivity
    linarith
  · rw [scoring_logic_health, if_neg (by simp [h])]

/-- The player sprite as `main` configures it (lines 41-45). -/
def wPlayer : Sprite :=
  { new_sprite SpritePreset.racingCarGreen with
    scale := 0.5, translation := ⟨0, 300⟩, collision := true, layer := 100 }

/-- Concrete engine used by witnesses: one frame of 1 second, no input, no
events, the `"player"` sprite and the three HUD labels present. -/
def wEngine : Engine :=
  { delta_f32 := 1, time_since_startup_f64 := 0,
    keyboard_state := ⟨false, false, false, false⟩,
    sprites := [("player", wPlayer)],
    texts := [("speed", ⟨⟨0, 0⟩, 30, ""⟩), ("score", ⟨⟨0, 0⟩, 30, ""⟩),
      ("health", ⟨⟨0, 0⟩, 30, ""⟩)],
    collision_events := [], sfx := [], window_dimensions := ⟨1920, 1080⟩ }

theorem lookupKV_wEngine_player :
    lookupKV wEngine.sprites "player" = some wPlayer := by
  simp [wEngine, lookupKV]

/-- Concrete game state used by witnesses: the startup state of `main`
(health 100, zero-length spawn timer), with a choice of hit flag. -/
def wState (hit : Bool) : GameState :=
  { health := 100, direction := 0, speed := 0, score := 0,
    spawn_timer := Timer.from_seconds 0 false, player_hit := hit,
    enemies := [] }

theorem C1_health_drain_witness :
    (scoring_logic wEngine (wState true)).2.health
      = (wState true).health - HIT_RATE * wEngine.delta_f32 :=
  ((C1_health_drain wEngine (wState true) (by norm_num [wEngine])).1 rfl).1

/-- The updated player sprite written back by `player_movement_logic`. -/
def pm_sprite (cosf sinf : ℚ → ℚ) (engine : Engine) (gs : GameState)
    (p : Sprite) : Sprite :=
  let speed := new_speed engine.keyboard_state gs.speed
  let dir := new_direction engine.keyboard_state engine.delta_f32 gs.direction
  { p with
    rotation := dir,
    translation :=
      ⟨p.translation.x + speed * engine.delta_f32 * cosf dir,
       p.translation.y + speed * engine.delta_f32 * sinf dir⟩ }

theorem player_movement_logic_spec (cosf sinf : ℚ → ℚ) (engine : Engine)
    (gs : GameState) (p : Sprite)
    (hp : lookupKV engine.sprites "player" = some p) :
    player_movement_logic cosf sinf engine gs
      = some ({ engine with
            sprites := updateKV engine.sprites "player"
              (pm_sprite cosf sinf engine gs p) },
          { gs with
            speed := new_speed engine.keyboard_state gs.speed,
            direction :=
              new_direction engine.keyboard_state engine.delta_f32
                gs.direction }) := by
  simp [player_movement_logic, hp, pm_sprite]

/-- Run `player_movement_logic` over consecutive frames with the given frame
deltas, with only the Up key pressed each frame. -/
def run_up_frames (cosf sinf : ℚ → ℚ) :
    List ℚ → Engine → GameState → Option (Engine × GameState)
  | [], engine, gs => some (engine, gs)
  | d :: rest, engine, gs =>
    match player_movement_logic cosf sinf
        ({ engine with
           delta_f32 := d,
           keyboard_state := ⟨true, false, false, false⟩ }) gs with
    | none => none
    | some (e', gs') => run_up_frames cosf sinf rest e' gs'

theorem run_up_frames_spec (cosf sinf : ℚ → ℚ) (deltas : List ℚ) :
    ∀ (engine : Engine) (gs : GameState) (p : Sprite),
      lookupKV engine.sprites "player" = some p →
      ∃ (e' : Engine) (gs' : GameState) (p' : Sprite),
        run_up_frames cosf sinf deltas engine gs = some (e', gs') ∧
        lookupKV e'.sprites "player" = some p' ∧
        gs'.speed = gs.speed + ACCELERATION * deltas.length := by
  induction deltas with
  | nil =>
    intro engine gs p hp
    exact ⟨engine, gs, p, rfl, hp, by simp⟩
  | cons d rest ih =>
    intro engine gs p hp
    have hpm := player_movement_logic_spec cosf sinf
      ({ engine with
         delta_f32 := d,
         keyboard_state := ⟨true, false, false, false⟩ }) gs p hp
    obtain ⟨e', gs', p'', hrun, hp'', hspeed⟩ :=
      ih ({ engine with
            delta_f32 := d,
            keyboard_state := ⟨true, false, false, false⟩,
            sprites := updateKV engine.sprites "player"
              (pm_sprite cosf sinf
                ({ engine with
                   delta_f32 := d,
                   keyboard_state := ⟨true, false, false, false⟩ }) gs p) })
        _ _ (lookupKV_updateKV_self engine.sprites "player" _)
    refine ⟨e', gs', p'', ?_, hp'', ?_⟩
    · simp only [run_up_frames, hpm]
      exact hrun
    · rw [hspeed]
      show (new_speed ⟨true, false, false, false⟩ gs.speed)
          + ACCELERATION * (rest.length : ℚ)
        = gs.speed + ACCELERATION * ((d :: rest).length : ℚ)
      have hns : new_speed ⟨true, false, false, false⟩ gs.speed
          = gs.speed + ACCELERATION := by
        simp [new_speed]
      rw [hns, List.length_cons]
      push_cast
      ring

/-- C4: with only the Up (accelerate) key pressed, each frame strictly
increases `speed` (by `ACCELERATION`, for every frame delta ≥ 0), so over
any nonempty run of consecutive such frames the speed strictly increases and
never decreases. -/
theorem C4_up_speed_monotone (cosf sinf : ℚ → ℚ) (deltas : List ℚ)
    (engine : Engine) (gs : GameState) (p : Sprite)
    (hp : lookupKV engine.sprites "player" = some p)
    (hd : ∀ d ∈ deltas, 0 ≤ d) (hne : deltas ≠ []) :
    ∃ (e' : Engine) (gs' : GameState),
      run_up_frames cosf sinf deltas engine gs = some (e', gs') ∧
      gs'.speed = gs.speed + ACCELERATION * deltas.length ∧
      gs.speed < gs'.speed := by
  obtain ⟨e', gs', p', hrun, _, hspeed⟩ :=
    run_up_frames_spec cosf sinf deltas engine gs p hp
  refine ⟨e', gs', hrun, hspeed, ?_⟩
  rw [hspeed]
  have hlen : 1 ≤ deltas.length := by
    cases deltas with
    | nil => exact absurd rfl hne
    | cons a l => simp
  have : (1:ℚ) ≤ (deltas.length : ℚ) := by exact_mod_cast hlen
  have : (0:ℚ) < ACCELERATION * (deltas.length : ℚ) := by
    have hA : (0:ℚ) < ACCELERATION := by norm_num [ACCELERATION]
    nlinarith
  linarith

theorem C4_up_speed_monotone_witness :
    ∃ (e' : Engine) (gs' : GameState),
      run_up_frames (fun _ => 0) (fun _ => 0) [1] wEngine (wState false)
          = some (e', gs') ∧
      gs'.speed = (wState false).speed + ACCELERATION * ([(1:ℚ)].length) ∧
      (wState false).speed < gs'.speed :=
  C4_up_speed_monotone (fun _ => 0) (fun _ => 0) [1] wEngine (wState false)
    wPlayer lookupKV_wEngine_player
    (by intro d hd; simp at hd; simp [hd]) (by simp)

/-- C5: the facing direction is unchanged when neither or both of Left/Right
are held; with exactly one of them held it changes by `ROTATION_SPEED *
delta`, with opposite signs and equal magnitude for Left versus Right; and
`player_movement_logic` stores exactly this updated direction. -/
theorem C5_rotation (up down : Bool) (d dir : ℚ) (hd : 0 < d) :
    new_direction ⟨up, down, false, false⟩ d dir = dir ∧
    new_direction ⟨up, down, true, true⟩ d dir = dir ∧
    new_direction ⟨up, down, true, false⟩ d dir - dir = ROTATION_SPEED * d ∧
    new_direction ⟨up, down, false, true⟩ d dir - dir
        = -(ROTATION_SPEED * d) ∧
    0 < new_direction ⟨up, down, true, false⟩ d dir - dir ∧
    new_direction ⟨up, down, false, true⟩ d dir - dir < 0 ∧
    |new_direction ⟨up, down, true, false⟩ d dir - dir|
        = ROTATION_SPEED * d ∧
    |new_direction ⟨up, down, false, true⟩ d dir - dir|
        = ROTATION_SPEED * d ∧
    (∀ (cosf sinf : ℚ → ℚ) (engine : Engine) (gs : GameState) (e' : Engine)
      (gs' : GameState),
      player_movement_logic cosf sinf engine gs = some (e', gs') →
      gs'.direction
        = new_direction engine.keyboard_state engine.delta_f32 gs.direction) := by
  have hR : (0:ℚ) < ROTATION_SPEED * d := by
    have : (0:ℚ) < ROTATION_SPEED := by norm_num [ROTATION_SPEED]
    nlinarith
  have hL : new_direction ⟨up, down, true, false⟩ d dir
      = dir + ROTATION_SPEED * d := by
    simp [new_direction]
  have hRt : new_direction ⟨up, down, false, true⟩ d dir
      = dir - ROTATION_SPEED * d := by
    simp [new_direction]
  have hLd : new_direction ⟨up, down, true, false⟩ d dir - dir
      = ROTATION_SPEED * d := by
    rw [hL]; ring
  have hRd : new_direction ⟨up, down, false, true⟩ d dir - dir
      = -(ROTATION_SPEED * d) := by
    rw [hRt]; ring
  refine ⟨by simp [new_direction], by simp [new_direction], hLd, hRd,
    by rw [hLd]; exact hR, by rw [hRd]; linarith,
    by rw [hLd]; exact abs_of_pos hR,
    by rw [hRd, abs_neg]; exact abs_of_pos hR, ?_⟩
  intro cosf sinf engine gs e' gs' h
  cases hp : lookupKV engine.sprites "player" with
  | none => simp [player_movement_logic, hp] at h
  | some p =>
    have hpm := player_movement_logic_spec cosf sinf engine gs p hp
    rw [hpm] at h
    injection h with h1
    have h2 := congrArg (fun r : Engine × GameState => r.2.direction) h1
    exact h2.symm

theorem C5_rotation_witness :
    new_direction ⟨false, false, true, false⟩ 1 0 - 0 = ROTATION_SPEED * 1 :=
  (C5_rotation false false 1 0 (by norm_num)).2.2.1

/-- C10: the per-frame speed change from Up/Down is the constant
`ACCELERATION`, independent of the frame delta: the stored speed is
`new_speed` of the keyboard state (which takes no delta), Up-only adds
exactly `ACCELERATION`, Down-only subtracts exactly `ACCELERATION`, and
rerunning the same frame with any other delta yields the same speed. -/
theorem C10_acceleration_delta_free (cosf sinf : ℚ → ℚ) (engine : Engine)
    (gs : GameState) (p : Sprite)
    (hp : lookupKV engine.sprites "player" = some p) :
    ∃ (e' : Engine) (gs' : GameState),
      player_movement_logic cosf sinf engine gs = some (e', gs') ∧
      gs'.speed = new_speed engine.keyboard_state gs.speed ∧
      (engine.keyboard_state = ⟨true, false, false, false⟩ →
        gs'.speed = gs.speed + ACCELERATION) ∧
      (engine.keyboard_state = ⟨false, true, false, false⟩ →
        gs'.speed = gs.speed - ACCELERATION) ∧
      (∀ d2 : ℚ, ∃ (e2 : Engine) (gs2 : GameState),
        player_movement_logic cosf sinf { engine with delta_f32 := d2 } gs
            = some (e2, gs2) ∧ gs2.speed = gs'.speed) := by
  have hpm := player_movement_logic_spec cosf sinf engine gs p hp
  refine ⟨_, _, hpm, rfl, ?_, ?_, ?_⟩
  · intro hkb
    show new_speed engine.keyboard_state gs.speed = _
    rw [hkb]
    simp [new_speed]
  · intro hkb
    show new_speed engine.keyboard_state gs.speed = _
    rw [hkb]
    simp [new_speed]
  · intro d2
    have hpm2 := player_movement_logic_spec cosf sinf
      ({ engine with delta_f32 := d2 }) gs p hp
    exact ⟨_, _, hpm2, rfl⟩

theorem C10_acceleration_delta_free_witness :
    ∃ (e' : Engine) (gs' : GameState),
      player_movement_logic (fun _ => 0) (fun _ => 0) wEngine (wState false)
          = some (e', gs') ∧
      gs'.speed = new_speed wEngine.keyboard_state (wState false).speed ∧
      (wEngine.keyboard_state = ⟨true, false, false, false⟩ →
        gs'.speed = (wState false).speed + ACCELERATION) ∧
      (wEngine.keyboard_state = ⟨false, true, false, false⟩ →
        gs'.speed = (wState false).speed - ACCELERATION) ∧
      (∀ d2 : ℚ, ∃ (e2 : Engine) (gs2 : GameState),
        player_movement_logic (fun _ => 0) (fun _ => 0)
            { wEngine with delta_f32 := d2 } (wState false)
          = some (e2, gs2) ∧ gs2.speed = gs'.speed) :=
  C10_acceleration_delta_free (fun _ => 0) (fun _ => 0) wEngine
    (wState false) wPlayer lookupKV_wEngine_player

theorem enemy_movement_single (cosf sinf : ℚ → ℚ) (engine : Engine)
    (gs : GameState) (enemy : Enemy) (h : gs.enemies = [enemy]) :
    ∃ s : Sprite,
      lookupKV (enemy_movement_logic cosf sinf engine gs).sprites enemy.label
          = some s ∧
      s.translation
          = enemy_target_position cosf sinf engine.time_since_startup_f64
              enemy ∧
      (lookupKV engine.sprites enemy.label = none →
        s.preset = SpritePreset.racingBarrelRed ∧ s.collision = true ∧
          s.layer = 1) := by
  have hfold : (enemy_movement_logic cosf sinf engine gs).sprites
      = enemy_step cosf sinf engine.time_since_startup_f64 engine.sprites
          enemy := by
    simp [enemy_movement_logic, h]
  cases hl : lookupKV engine.sprites enemy.label with
  | some s0 =>
    refine ⟨{ s0 with
      translation :=
        enemy_target_position cosf sinf engine.time_since_startup_f64
          enemy }, ?_, rfl, ?_⟩
    · rw [hfold]
      show lookupKV (enemy_step cosf sinf _ _ _) enemy.label = _
      unfold enemy_step
      rw [hl]
      exact lookupKV_updateKV_self _ _ _
    · intro hnone
      simp at hnone
  | none =>
    refine ⟨{ new_sprite SpritePreset.racingBarrelRed with
      layer := 1, collision := true,
      translation :=
        enemy_target_position cosf sinf engine.time_since_startup_f64
          enemy }, ?_, rfl, fun _ => ⟨rfl, rfl, rfl⟩⟩
    rw [hfold]
    unfold enemy_step
    rw [hl]
    exact lookupKV_updateKV_self _ _ _

/-- C6: the enemy sprite position computed by `enemy_movement_logic` is the
pure function `enemy_target_position` of the elapsed time and the anchor,
direction and amplitude of the enemy: two runs from arbitrary (different) engine
and game states agree on the written position whenever their elapsed times
agree — no hidden or accumulated state enters. -/
theorem C6_enemy_position_deterministic (cosf sinf : ℚ → ℚ)
    (e1 e2 : Engine) (g1 g2 : GameState) (enemy : Enemy)
    (ht : e1.time_since_startup_f64 = e2.time_since_startup_f64)
    (h1 : g1.enemies = [enemy]) (h2 : g2.enemies = [enemy]) :
    ∃ s1 s2 : Sprite,
      lookupKV (enemy_movement_logic cosf sinf e1 g1).sprites enemy.label
          = some s1 ∧
      lookupKV (enemy_movement_logic cosf sinf e2 g2).sprites enemy.label
          = some s2 ∧
      s1.translation
          = enemy_target_position cosf sinf e1.time_since_startup_f64
              enemy ∧
      s2.translation = s1.translation := by
  obtain ⟨s1, hs1, htr1, -⟩ :=
    enemy_movement_single cosf sinf e1 g1 enemy h1
  obtain ⟨s2, hs2, htr2, -⟩ :=
    enemy_movement_single cosf sinf e2 g2 enemy h2
  exact ⟨s1, s2, hs1, hs2, htr1, by rw [htr1, htr2, ht]⟩

/-- Enemy record for the witnesses (anchor, direction and amplitude of
`enemy_1` from `main`, with a rational stand-in for the angle). -/
def wEnemy : Enemy :=
  { label := "enemy_1", position := ⟨-150, 300⟩, direction := 0,
    amplitude := 20 }

/-- Witness game state holding exactly the witness enemy. -/
def wStateE : GameState :=
  { wState false with enemies := [wEnemy] }

theorem C6_enemy_position_deterministic_witness :
    ∃ s1 s2 : Sprite,
      lookupKV
          (enemy_movement_logic (fun _ => 1) (fun _ => 0) wEngine
            wStateE).sprites wEnemy.label = some s1 ∧
      lookupKV
          (enemy_movement_logic (fun _ => 1) (fun _ => 0)
            ({ wEngine with delta_f32 := 2 }) wStateE).sprites wEnemy.label
          = some s2 ∧
      s1.translation
          = enemy_target_position (fun _ => 1) (fun _ => 0)
              wEngine.time_since_startup_f64 wEnemy ∧
      s2.translation = s1.translation :=
  C6_enemy_position_deterministic (fun _ => 1) (fun _ => 0) wEngine
    ({ wEngine with delta_f32 := 2 }) wStateE wStateE wEnemy rfl rfl rfl

/-- C9: when `enemy_movement_logic` finds no sprite under an enemy label
it does not abort: it lazily creates the sprite with the fixed
`RacingBarrelRed` preset, collision enabled and render layer 1, and writes
the oscillation position to it. -/
theorem C9_lazy_sprite_creation (cosf sinf : ℚ → ℚ) (engine : Engine)
    (gs : GameState) (enemy : Enemy)
    (hmiss : lookupKV engine.sprites enemy.label = none)
    (hone : gs.enemies = [enemy]) :
    ∃ s : Sprite,
      lookupKV (enemy_movement_logic cosf sinf engine gs).sprites enemy.label
          = some s ∧
      s.preset = SpritePreset.racingBarrelRed ∧
      s.collision = true ∧
      s.layer = 1 ∧
      s.translation
        = enemy_target_position cosf sinf engine.time_since_startup_f64
            enemy := by
  obtain ⟨s, hs, htr, hnew⟩ :=
    enemy_movement_single cosf sinf engine gs enemy hone
  obtain ⟨hp, hc, hl⟩ := hnew hmiss
  exact ⟨s, hs, hp, hc, hl, htr⟩

theorem C9_lazy_sprite_creation_witness :
    ∃ s : Sprite,
      lookupKV
          (enemy_movement_logic (fun _ => 1) (fun _ => 0) wEngine
            wStateE).sprites wEnemy.label = some s ∧
      s.preset = SpritePreset.racingBarrelRed ∧
      s.collision = true ∧
      s.layer = 1 ∧
      s.translation
        = enemy_target_position (fun _ => 1) (fun _ => 0)
            wEngine.time_since_startup_f64 wEnemy :=
  C9_lazy_sprite_creation (fun _ => 1) (fun _ => 0) wEngine wStateE wEnemy
    (by simp [wEngine, wEnemy, lookupKV]) rfl

/-- C7: when the spawn timer elapses, `enemy_spawn_logic` reassigns it a
fresh non-repeating timer whose duration lies in the configured random range
`1.5..3.5` (any uniform draw `u ∈ [0,1)`), and in every case the enemies
collection is left unchanged — no enemy is introduced. -/
theorem C7_spawn_timer (u : ℚ) (engine : Engine) (gs : GameState)
    (hu0 : 0 ≤ u) (hu1 : u < 1) :
    (enemy_spawn_logic u engine gs).enemies = gs.enemies ∧
    ((gs.spawn_timer.tick engine.delta_f32).just_finished = true →
      3/2 ≤ (enemy_spawn_logic u engine gs).spawn_timer.duration ∧
      (enemy_spawn_logic u engine gs).spawn_timer.duration < 7/2) := by
  cases ht : (gs.spawn_timer.tick engine.delta_f32).just_finished with
  | false =>
    have hif : enemy_spawn_logic u engine gs
        = { gs with spawn_timer := gs.spawn_timer.tick engine.delta_f32 } := by
      unfold enemy_spawn_logic
      rw [if_neg (by simp [ht])]
    rw [hif]
    exact ⟨rfl, fun h => absurd h (by simp [ht])⟩
  | true =>
    have hif : enemy_spawn_logic u engine gs
        = { gs with
            spawn_timer := Timer.from_seconds (genRange 1.5 3.5 u) false } := by
      unfold enemy_spawn_logic
      rw [if_pos ht]
    rw [hif]
    refine ⟨rfl, fun _ => ⟨?_, ?_⟩⟩
    · show (3:ℚ)/2 ≤ (Timer.from_seconds (genRange 1.5 3.5 u) false).duration
      simp only [Timer.from_seconds, genRange]
      linarith
    · show (Timer.from_seconds (genRange 1.5 3.5 u) false).duration < 7/2
      simp only [Timer.from_seconds, genRange]
      linarith

theorem C7_spawn_timer_witness :
    ((wState false).spawn_timer.tick wEngine.delta_f32).just_finished
        = true ∧
    (enemy_spawn_logic 0 wEngine (wState false)).enemies
        = (wState false).enemies ∧
    3/2 ≤ (enemy_spawn_logic 0 wEngine (wState false)).spawn_timer.duration :=
  have h := C7_spawn_timer 0 wEngine (wState false) (by norm_num)
    (by norm_num)
  have ht : ((wState false).spawn_timer.tick wEngine.delta_f32).just_finished
      = true := by
    simp [wState, wEngine, Timer.from_seconds, Timer.tick]
  ⟨ht, h.1, (h.2 ht).1⟩

/-- C2: a collision event whose pair is the player and the inner track edge
sets the `player_hit` flag on `Begin` and clears it on `End`; for the player
and the outer track edge the roles are reversed (`End` sets, `Begin`
clears).  This holds at every point of the event fold (arbitrary
accumulated flag and sound list), and `collision_logic` is exactly that
fold. -/
theorem C2_track_edge_hit_flag (hit : Bool) (sfx : List SfxPlay)
    (s : CollisionState) :
    ((collision_step (hit, sfx) ⟨⟨"player", "track_inner"⟩, s⟩).1
        = decide (s = CollisionState.begin_)) ∧
    ((collision_step (hit, sfx) ⟨⟨"track_inner", "player"⟩, s⟩).1
        = decide (s = CollisionState.begin_)) ∧
    ((collision_step (hit, sfx) ⟨⟨"player", "track_outer"⟩, s⟩).1
        = decide (s = CollisionState.end_)) ∧
    ((collision_step (hit, sfx) ⟨⟨"track_outer", "player"⟩, s⟩).1
        = decide (s = CollisionState.end_)) ∧
    (∀ (engine : Engine) (gs : GameState),
      (collision_logic engine gs).2.player_hit
        = (engine.collision_events.foldl collision_step
            (gs.player_hit, engine.sfx)).1) := by
  refine ⟨?_, ?_, ?_, ?_, fun engine gs => rfl⟩ <;> cases s <;> rfl

/-- C3: `scoring_logic` adds exactly 10 to the score for every `Begin`
transition of a pair involving an enemy and the player, however often the
pair repeats, and every other event leaves the score unchanged: the final
score is the initial score plus 10 times the count of such events. -/
theorem C3_score_increment (engine : Engine) (gs : GameState) :
    (scoring_logic engine gs).2.score
      = gs.score + 10 * (engine.collision_events.countP scores_event : ℤ) :=
  scoring_logic_score engine gs

/-! ### Whole-frame lemmas (for the health/score invariant claim) -/

theorem lookupKV_updateKV_ne {α : Type} (l : List (String × α))
    (n m : String) (v : α) (h : ¬n = m) :
    lookupKV (updateKV l n v) m = lookupKV l m := by
  induction l with
  | nil => simp [updateKV, lookupKV, h]
  | cons kv rest ih =>
    by_cases hk : kv.1 = n
    · simp [updateKV, lookupKV, hk, h, fun hm => h (hk ▸ hm)]
    · simp [updateKV, lookupKV, hk, ih]

theorem player_movement_logic_inv (cosf sinf : ℚ → ℚ) (engine : Engine)
    (gs : GameState) (r : Engine × GameState)
    (h : player_movement_logic cosf sinf engine gs = some r) :
    r.2.health = gs.health ∧ r.2.score = gs.score ∧
    r.2.player_hit = gs.player_hit ∧ r.2.spawn_timer = gs.spawn_timer ∧
    r.2.enemies = gs.enemies ∧
    r.1.delta_f32 = engine.delta_f32 ∧
    r.1.collision_events = engine.collision_events ∧
    r.1.sfx = engine.sfx ∧ r.1.texts = engine.texts ∧
    r.1.time_since_startup_f64 = engine.time_since_startup_f64 := by
  cases hp : lookupKV engine.sprites "player" with
  | none => simp [player_movement_logic, hp] at h
  | some p =>
    rw [player_movement_logic_spec cosf sinf engine gs p hp] at h
    injection h with h1
    subst h1
    exact ⟨rfl, rfl, rfl, rfl, rfl, rfl, rfl, rfl, rfl, rfl⟩

theorem enemy_spawn_logic_health (u : ℚ) (engine : Engine)
    (gs : GameState) : (enemy_spawn_logic u engine gs).health = gs.health := by
  simp only [enemy_spawn_logic]
  split <;> rfl

theorem enemy_spawn_logic_score (u : ℚ) (engine : Engine)
    (gs : GameState) : (enemy_spawn_logic u engine gs).score = gs.score := by
  simp only [enemy_spawn_logic]
  split <;> rfl

theorem collision_step_skip (acc : Bool × List SfxPlay) (e : CollisionEvent)
    (h1 : (e.pair.one_starts_with "track_inner"
        && e.pair.one_starts_with "player") = false)
    (h2 : (e.pair.one_starts_with "track_outer"
        && e.pair.one_starts_with "player") = false) :
    collision_step acc e = acc := by
  unfold collision_step
  rw [h1, h2]
  simp

theorem collision_foldl_skip (events : List CollisionEvent)
    (h : ∀ e ∈ events,
      (e.pair.one_starts_with "track_inner"
          && e.pair.one_starts_with "player") = false ∧
      (e.pair.one_starts_with "track_outer"
          && e.pair.one_starts_with "player") = false) :
    ∀ acc : Bool × List SfxPlay, events.foldl collision_step acc = acc := by
  induction events with
  | nil => intro acc; rfl
  | cons e rest ih =>
    intro acc
    rw [List.foldl_cons,
      collision_step_skip acc e (h e (by simp)).1 (h e (by simp)).2]
    exact ih (fun e' he' => h e' (by simp [he'])) acc

theorem hud_logic_some (engine : Engine) (gs : GameState) (t1 t2 t3 : Text)
    (h1 : lookupKV engine.texts "speed" = some t1)
    (h2 : lookupKV engine.texts "score" = some t2)
    (h3 : lookupKV engine.texts "health" = some t3) :
    ∃ e5 : Engine, hud_logic engine gs = some e5 := by
  unfold hud_logic
  rw [h1]
  dsimp only
  rw [lookupKV_updateKV_ne _ _ _ _ (by decide), h2]
  dsimp only
  rw [lookupKV_updateKV_ne _ _ _ _ (by decide),
    lookupKV_updateKV_ne _ _ _ _ (by decide), h3]
  exact ⟨_, rfl⟩

theorem frame_rest_health_score (cosf sinf : ℚ → ℚ) (u : ℚ) (e1 : Engine)
    (g1 : GameState) (e' : Engine) (gs' : GameState)
    (h : frame_rest cosf sinf u e1 g1 = some (e', gs')) :
    gs'.health
        = (if (e1.collision_events.foldl collision_step
              (g1.player_hit, e1.sfx)).1
           then g1.health - HIT_RATE * e1.delta_f32 else g1.health) ∧
    gs'.score
        = g1.score + 10 * (e1.collision_events.countP scores_event : ℤ) := by
  simp only [frame_rest] at h
  obtain ⟨e5, -, hfa⟩ := Option.map_eq_some'.mp h
  injection hfa with hfa1 hfa2
  subst hfa2
  constructor
  · rw [enemy_spawn_logic_health, scoring_logic_health]
    rfl
  · rw [enemy_spawn_logic_score, scoring_logic_score]
    rfl

theorem frame_health_score (cosf sinf : ℚ → ℚ) (u : ℚ) (engine : Engine)
    (gs : GameState) (e' : Engine) (gs' : GameState)
    (h : frame cosf sinf u engine gs = some (e', gs')) :
    ∃ b : Bool,
      b = (engine.collision_events.foldl collision_step
            (gs.player_hit, engine.sfx)).1 ∧
      gs'.health
          = (if b then gs.health - HIT_RATE * engine.delta_f32
             else gs.health) ∧
      gs'.score
          = gs.score + 10 * (engine.collision_events.countP scores_event : ℤ) := by
  cases hpm : player_movement_logic cosf sinf engine gs with
  | none => simp [frame, hpm] at h
  | some r1 =>
    obtain ⟨hh, hs, hhit, -, -, hd, hce, hsfx, -, -⟩ :=
      player_movement_logic_inv cosf sinf engine gs r1 hpm
    have hfr : frame_rest cosf sinf u r1.1 r1.2 = some (e', gs') := by
      simpa [frame, hpm] using h
    obtain ⟨hH, hS⟩ :=
      frame_rest_health_score cosf sinf u r1.1 r1.2 e' gs' hfr
    refine ⟨(r1.1.collision_events.foldl collision_step
      (r1.2.player_hit, r1.1.sfx)).1, ?_, ?_, ?_⟩
    · rw [hce, hhit, hsfx]
    · rw [hH, hh, hd]
    · rw [hS, hs, hce]

theorem frame_mono (cosf sinf : ℚ → ℚ) (u : ℚ) (engine : Engine)
    (gs : GameState) (e' : Engine) (gs' : GameState)
    (h : frame cosf sinf u engine gs = some (e', gs')) :
    (0 ≤ engine.delta_f32 → gs'.health ≤ gs.health) ∧ gs.score ≤ gs'.score := by
  obtain ⟨b, -, hH, hS⟩ := frame_health_score cosf sinf u engine gs e' gs' h
  constructor
  · intro hd
    rw [hH]
    cases b
    · simp
    · rw [if_pos rfl]
      have h10 : (0:ℚ) ≤ HIT_RATE * engine.delta_f32 := by
        have : (0:ℚ) ≤ HIT_RATE := by norm_num [HIT_RATE]
        positivity
      linarith
  · rw [hS]
    have : (0:ℤ) ≤ 10 * (engine.collision_events.countP scores_event : ℤ) := by
      positivity
    linarith

theorem frame_rest_some (cosf sinf : ℚ → ℚ) (u : ℚ) (e1 : Engine)
    (g1 : GameState) (t1 t2 t3 : Text)
    (h1 : lookupKV e1.texts "speed" = some t1)
    (h2 : lookupKV e1.texts "score" = some t2)
    (h3 : lookupKV e1.texts "health" = some t3) :
    ∃ r : Engine × GameState, frame_rest cosf sinf u e1 g1 = some r := by
  obtain ⟨e5, hh⟩ := hud_logic_some
    (scoring_logic
      (collision_logic (enemy_movement_logic cosf sinf e1 g1) g1).1
      (collision_logic (enemy_movement_logic cosf sinf e1 g1) g1).2).1
    (enemy_spawn_logic u
      (scoring_logic
        (collision_logic (enemy_movement_logic cosf sinf e1 g1) g1).1
        (collision_logic (enemy_movement_logic cosf sinf e1 g1) g1).2).1
      (scoring_logic
        (collision_logic (enemy_movement_logic cosf sinf e1 g1) g1).1
        (collision_logic (enemy_movement_logic cosf sinf e1 g1) g1).2).2)
    t1 t2 t3 h1 h2 h3
  have hfr : frame_rest cosf sinf u e1 g1
      = some (e5, enemy_spawn_logic u
        (scoring_logic
          (collision_logic (enemy_movement_logic cosf sinf e1 g1) g1).1
          (collision_logic (enemy_movement_logic cosf sinf e1 g1) g1).2).1
        (scoring_logic
          (collision_logic (enemy_movement_logic cosf sinf e1 g1) g1).1
          (collision_logic (enemy_movement_logic cosf sinf e1 g1) g1).2).2) := by
    simp only [frame_rest]
    rw [hh]
    rfl
  exact ⟨_, hfr⟩

theorem frame_some (cosf sinf : ℚ → ℚ) (u : ℚ) (engine : Engine)
    (gs : GameState) (p : Sprite) (t1 t2 t3 : Text)
    (hp : lookupKV engine.sprites "player" = some p)
    (h1 : lookupKV engine.texts "speed" = some t1)
    (h2 : lookupKV engine.texts "score" = some t2)
    (h3 : lookupKV engine.texts "health" = some t3) :
    ∃ r : Engine × GameState, frame cosf sinf u engine gs = some r := by
  have hpm := player_movement_logic_spec cosf sinf engine gs p hp
  obtain ⟨r, hr⟩ := frame_rest_some cosf sinf u
    ({ engine with
       sprites := updateKV engine.sprites "player"
         (pm_sprite cosf sinf engine gs p) })
    ({ gs with
       speed := new_speed engine.keyboard_state gs.speed,
       direction :=
         new_direction engine.keyboard_state engine.delta_f32 gs.direction })
    t1 t2 t3 h1 h2 h3
  refine ⟨r, ?_⟩
  simp only [frame, hpm]
  exact hr

theorem lookupKV_wEngine_speed :
    lookupKV wEngine.texts "speed" = some ⟨⟨0, 0⟩, 30, ""⟩ := by
  simp [wEngine, lookupKV]

theorem lookupKV_wEngine_score :
    lookupKV wEngine.texts "score" = some ⟨⟨0, 0⟩, 30, ""⟩ := by
  simp [wEngine, lookupKV]

theorem lookupKV_wEngine_health :
    lookupKV wEngine.texts "health" = some ⟨⟨0, 0⟩, 30, ""⟩ := by
  simp [wEngine, lookupKV]

/-- A scoring collision event: a `Begin` transition of the player with an
enemy. -/
def evEnemyBegin : CollisionEvent :=
  ⟨⟨"player", "enemy_1"⟩, CollisionState.begin_⟩

theorem scores_event_evEnemyBegin : scores_event evEnemyBegin = true := by
  decide

/-- The upward half of the claimed bidirectional movement of health: some
frame with a nonnegative frame delta strictly increases health. -/
def health_can_rise : Prop :=
  ∃ (cosf sinf : ℚ → ℚ) (u : ℚ) (engine : Engine) (gs : GameState)
    (e' : Engine) (gs' : GameState),
    0 ≤ engine.delta_f32 ∧
    frame cosf sinf u engine gs = some (e', gs') ∧
    gs.health < gs'.health

/-- The downward half of the claimed bidirectional movement of score: some
frame strictly decreases score. -/
def score_can_fall : Prop :=
  ∃ (cosf sinf : ℚ → ℚ) (u : ℚ) (engine : Engine) (gs : GameState)
    (e' : Engine) (gs' : GameState),
    frame cosf sinf u engine gs = some (e', gs') ∧
    gs'.score < gs.score

/-- C8 (counterexample): the claimed "health and score can move arbitrarily
in either direction" is false.  No frame with a nonnegative frame delta
ever increases health, and no frame at all ever decreases score — each
quantity moves in one direction only. -/
theorem C8_counterexample_monotone : ¬health_can_rise ∧ ¬score_can_fall := by
  constructor
  · rintro ⟨cosf, sinf, u, engine, gs, e', gs', hd, hf, hlt⟩
    have hm := (frame_mono cosf sinf u engine gs e' gs' hf).1 hd
    linarith
  · rintro ⟨cosf, sinf, u, engine, gs, e', gs', hf, hlt⟩
    have hm := (frame_mono cosf sinf u engine gs e' gs' hf).2
    omega

/-- C8 (amended): no callback clamps health or score or triggers a
game-over transition; health is unbounded below (a frame can push it below
any bound) and score is unbounded above (a frame can push it above any
bound).  But neither moves in both directions: across any frame with a
nonnegative delta, health never increases, and across any frame, score
never decreases. -/
theorem C8_unbounded_but_monotone :
    (∀ B : ℚ, ∃ (engine : Engine) (gs : GameState) (e' : Engine)
      (gs' : GameState),
      frame (fun _ => 0) (fun _ => 0) 0 engine gs = some (e', gs') ∧
      gs'.health < B) ∧
    (∀ B : ℤ, ∃ (engine : Engine) (gs : GameState) (e' : Engine)
      (gs' : GameState),
      frame (fun _ => 0) (fun _ => 0) 0 engine gs = some (e', gs') ∧
      B < gs'.score) ∧
    (¬health_can_rise ∧ ¬score_can_fall) := by
  refine ⟨?_, ?_, ?_⟩
  · intro B
    obtain ⟨r, hr⟩ := frame_some (fun _ => 0) (fun _ => 0) 0
      ({ wEngine with delta_f32 := (100 + |B|) / 10 + 1 }) (wState true)
      wPlayer ⟨⟨0, 0⟩, 30, ""⟩ ⟨⟨0, 0⟩, 30, ""⟩ ⟨⟨0, 0⟩, 30, ""⟩
      lookupKV_wEngine_player lookupKV_wEngine_speed
      lookupKV_wEngine_score lookupKV_wEngine_health
    obtain ⟨e', gs'⟩ := r
    obtain ⟨b, hb, hH, -⟩ := frame_health_score _ _ _ _ _ _ _ hr
    have hb' : b = true := by
      rw [hb]
      simp [wEngine, wState]
    rw [hb', if_pos rfl] at hH
    refine ⟨_, _, e', gs', hr, ?_⟩
    rw [hH]
    have hnb := neg_abs_le B
    show (wState true).health
        - HIT_RATE * ({ wEngine with
            delta_f32 := (100 + |B|) / 10 + 1 } : Engine).delta_f32 < B
    simp only [wState]
    norm_num [HIT_RATE]
    linarith
  · intro B
    obtain ⟨r, hr⟩ := frame_some (fun _ => 0) (fun _ => 0) 0
      ({ wEngine with
         collision_events := List.replicate (B.toNat + 1) evEnemyBegin })
      (wState false) wPlayer ⟨⟨0, 0⟩, 30, ""⟩ ⟨⟨0, 0⟩, 30, ""⟩
      ⟨⟨0, 0⟩, 30, ""⟩ lookupKV_wEngine_player lookupKV_wEngine_speed
      lookupKV_wEngine_score lookupKV_wEngine_health
    obtain ⟨e', gs'⟩ := r
    obtain ⟨b, -, -, hS⟩ := frame_health_score _ _ _ _ _ _ _ hr
    refine ⟨_, _, e', gs', hr, ?_⟩
    rw [hS]
    have hc : ((({ wEngine with
        collision_events := List.replicate (B.toNat + 1) evEnemyBegin })
          : Engine).collision_events.countP scores_event) = B.toNat + 1 := by
      show (List.replicate (B.toNat + 1) evEnemyBegin).countP scores_event
          = B.toNat + 1
      simp [List.countP_replicate, scores_event_evEnemyBegin]
    rw [hc]
    have hsc : (wState false).score = 0 := rfl
    rw [hsc]
    push_cast
    omega
  · constructor
    · rintro ⟨cosf, sinf, u, engine, gs, e', gs', hd, hf, hlt⟩
      have hm := (frame_mono cosf sinf u engine gs e' gs' hf).1 hd
      linarith
    · rintro ⟨cosf, sinf, u, engine, gs, e', gs', hf, hlt⟩
      have hm := (frame_mono cosf sinf u engine gs e' gs' hf).2
      omega
